import Mathlib

/-!
Shallow embedding of the apitrace trace parser (`src/trace_parser.cpp`,
namespace `Trace`, class `Parser`) and proofs about it.

Modelling conventions:
* The decompressed byte stream is a `List Nat` of byte values; `file->getc()`
  returning `-1` at EOF is modelled as `Option Nat` with `none` at the end of
  the list.
* `File::Offset` (`file->currentOffset()`) is modelled as the count of bytes
  consumed so far.  Spec section 4.1 only requires a unique, monotone position
  token in the decompressed stream, which a byte count satisfies.
* C++ machine integers are `Nat`/`Int` with explicit `% 2 ^ 64` where the
  64-bit accumulation in `read_uint` can overflow.
* `exit(1)` on unknown tags is the `fatal` outcome; loops are driven by an
  explicit fuel parameter whose exhaustion is the `spin` outcome (which never
  occurs when the fuel exceeds the work available).
* Fields `assigned` and `warned` of `ParserState` are ghost observation logs
  (call numbers assigned at ENTER events, and call numbers reported by the
  `warning: incomplete call` messages of `parse_call`); no parsing decision
  reads them.
-/

namespace Trace

/-- Modelled from the spec: the single-byte event and tag constants come from
`trace_format.hpp`, which is not under `src/`; the spec fixes them as distinct
single bytes (section 6).  The concrete values follow the original wire
format; no claim depends on the particular numbers, only on their
distinctness. -/
def EVENT_ENTER : Nat := 0

def EVENT_LEAVE : Nat := 1

def CALL_END : Nat := 0

def CALL_ARG : Nat := 1

def CALL_RET : Nat := 2

def TYPE_NULL : Nat := 0

def TYPE_FALSE : Nat := 1

def TYPE_TRUE : Nat := 2

def TYPE_SINT : Nat := 3

def TYPE_UINT : Nat := 4

def TYPE_FLOAT : Nat := 5

def TYPE_DOUBLE : Nat := 6

def TYPE_STRING : Nat := 7

def TYPE_BLOB : Nat := 8

def TYPE_ENUM : Nat := 9

def TYPE_BITMASK : Nat := 10

def TYPE_ARRAY : Nat := 11

def TYPE_STRUCT : Nat := 12

/-- `Trace::TYPE_OPAQUE` in the source. -/
def TYPE_POINTER : Nat := 13

/-- `Trace::FunctionSig`: strings are byte lists (the bytes read from the
stream; the trailing NUL appended by `read_string` is a C convention with no
observable content). -/
structure FunctionSig where
  id : Nat
  name : List Nat
  arg_names : List (List Nat)

structure EnumSig where
  id : Nat
  name : List Nat
  value : Int

structure BitmaskFlag where
  name : List Nat
  value : Nat

structure BitmaskSig where
  id : Nat
  flags : List BitmaskFlag

structure StructSig where
  id : Nat
  name : List Nat
  member_names : List (List Nat)

/-- The carrier of the C++ `Float` value object.  `Parser::parse_float` builds
it from 4 raw bytes and `Parser::parse_double` builds it from 8 raw bytes via
an IEEE-754 narrowing conversion (`new Float(value)` where `value` is a
`double`).  The numeric conversion itself is floating point and is not
modelled; the constructor records which raw bytes the object was built
from. -/
inductive FloatRaw where
  | ofFloatBytes (bytes : List Nat)
  | ofDoubleBytes (bytes : List Nat)

/-- The tagged value model (`trace_model.hpp` is not under `src/`; the
variants are modelled from spec section 3).  The `double` variant is the
spec's `Double(f64)`; as proved below, the parser in the source never
constructs it. -/
inductive Value where
  | null
  | bool (b : Bool)
  | sint (v : Int)
  | uint (v : Nat)
  | float (raw : FloatRaw)
  | double (bits : Nat)
  | string (bytes : List Nat)
  | enum (sig : EnumSig)
  | bitmask (sig : BitmaskSig) (value : Nat)
  | array (values : List (Option Value))
  | struct (sig : StructSig) (members : List (Option Value))
  | blob (bytes : List Nat)
  | pointer (addr : Nat)

/-- `Trace::Call`.  `args` is the sparse argument vector: a `none` slot is a
NULL pointer in the C++ `std::vector<Value *>` (unset). -/
structure Call where
  no : Nat
  sig : FunctionSig
  args : List (Option Value)
  ret : Option Value

/-- The part of the parser state touched by the value-level parsing functions:
the stream position and the struct/enum/bitmask signature tables with their
seen-at offset sets. -/
structure VState where
  stream : List Nat
  offset : Nat
  structs : List (Option StructSig)
  enums : List (Option EnumSig)
  bitmasks : List (Option BitmaskSig)
  m_structSigOffsets : List Nat
  m_enumSigOffsets : List Nat
  m_bitmaskSigOffsets : List Nat

/-- The full `Trace::Parser` state.  `assigned` and `warned` are ghost logs
(see the module comment). -/
structure ParserState where
  v : VState
  functions : List (Option FunctionSig)
  m_callSigOffsets : List Nat
  calls : List Call
  next_call_no : Nat
  assigned : List Nat
  warned : List Nat

/-- `file->getc()`: next byte or EOF. -/
def getc (s : VState) : Option Nat × VState :=
  match s.stream with
  | [] => (none, s)
  | b :: rest => (some b, { s with stream := rest, offset := s.offset + 1 })

/-- The accumulation loop of `Parser::read_uint` on the raw byte list:
`value |= (unsigned long long)(c & 0x7f) << shift; shift += 7` while the
continuation bit `0x80` is set, stopping early at EOF.  The `% 2 ^ 64`
reflects the 64-bit `unsigned long long` accumulator. -/
def readUintLoop : List Nat → Nat → Nat → Nat × List Nat
  | [], value, _ => (value, [])
  | c :: cs, value, shift =>
    let value := value ||| (((c &&& 0x7f) <<< shift) % 2 ^ 64)
    if c &&& 0x80 ≠ 0 then readUintLoop cs value (shift + 7) else (value, cs)

/-- Reposition a `VState` on a suffix of its stream, advancing the offset by
the number of bytes consumed. -/
def advance (s : VState) (rest : List Nat) : VState :=
  { s with stream := rest, offset := s.offset + (s.stream.length - rest.length) }

/-- `Parser::read_uint`. -/
def read_uint (s : VState) : Nat × VState :=
  let r := readUintLoop s.stream 0 0
  (r.1, advance s r.2)

/-- `file->read(buf, n)`: exactly `n` bytes, or a short read at EOF. -/
def read_bytes (s : VState) (n : Nat) : List Nat × VState :=
  (s.stream.take n, advance s (s.stream.drop n))

/-- `Parser::read_string`: varint length, then that many raw bytes. -/
def read_string (s : VState) : List Nat × VState :=
  let r := read_uint s
  read_bytes r.2 r.1

/-- A sequence of `num` `read_string` reads (the argument-name / member-name
loops of the signature bodies). -/
def read_strings : Nat → VState → List (List Nat) → List (List Nat) × VState
  | 0, s, acc => (acc.reverse, s)
  | n + 1, s, acc =>
    let r := read_string s
    read_strings n r.2 (r.1 :: acc)

/-- The `lookup` helper of the source: index into the id-indexed vector,
resizing (with NULL entries) when the id does not fit. -/
def lookup {α : Type} (map : List (Option α)) (index : Nat) :
    Option α × List (Option α) :=
  if map.length ≤ index then (none, map ++ List.replicate (index + 1 - map.length) none)
  else (map.getD index none, map)

/-- `std::set<File::Offset>::insert`. -/
def insertOffset (set : List Nat) (o : Nat) : List Nat :=
  if set.contains o then set else o :: set

/-- Outcome of a value-level parsing function: a result with the new state,
the `exit(1)` taken on an unknown tag, or fuel exhaustion. -/
inductive OutV (α : Type) where
  | ok (a : α) (s : VState)
  | fatal (s : VState)
  | spin

/-- Two's-complement wrap of an integer into a signed 64-bit value. -/
def wrapI64 (z : Int) : Int :=
  (z + 2 ^ 63) % 2 ^ 64 - 2 ^ 63

/-- `Parser::parse_sint`: `new SInt(-(signed long long)read_uint())`. -/
def parse_sint (s : VState) : Value × VState :=
  let r := read_uint s
  (Value.sint (wrapI64 (-(wrapI64 (Int.ofNat r.1)))), r.2)

/-- `Parser::parse_uint`. -/
def parse_uint (s : VState) : Value × VState :=
  let r := read_uint s
  (Value.uint r.1, r.2)

/-- `Parser::parse_float`: 4 raw bytes into a `Float` object. -/
def parse_float (s : VState) : Value × VState :=
  let r := read_bytes s 4
  (Value.float (FloatRaw.ofFloatBytes r.1), r.2)

/-- `Parser::parse_double`: reads 8 raw bytes into a `double`, then returns
`new Float(value)` — the single-precision `Float` object, not a
double-precision variant. -/
def parse_double (s : VState) : Value × VState :=
  let r := read_bytes s 8
  (Value.float (FloatRaw.ofDoubleBytes r.1), r.2)

/-- `Parser::parse_string`. -/
def parse_string (s : VState) : Value × VState :=
  let r := read_string s
  (Value.string r.1, r.2)

/-- `Parser::parse_blob`. -/
def parse_blob (s : VState) : Value × VState :=
  let r := read_uint s
  let b := read_bytes r.2 r.1
  (Value.blob b.1, b.2)

/-- `Parser::parse_opaque`: a 64-bit address as a `Pointer`. -/
def parse_pointer (s : VState) : Value × VState :=
  let r := read_uint s
  (Value.pointer r.1, r.2)

/-- The flag-reading loop of `Parser::parse_bitmask`. -/
def read_bitmask_flags : Nat → VState → List BitmaskFlag → List BitmaskFlag × VState
  | 0, s, acc => (acc.reverse, s)
  | n + 1, s, acc =>
    let nm := read_string s
    let vl := read_uint nm.2
    read_bitmask_flags n vl.2 ({ name := nm.1, value := vl.1 } :: acc)

/-- `Parser::parse_bitmask` (it never recurses into `parse_value`). -/
def parse_bitmask (s : VState) : Value × VState :=
  let r := read_uint s
  let id := r.1
  let lk := lookup s.bitmasks id
  let s := { r.2 with bitmasks := lk.2 }
  let offset := s.offset
  match lk.1 with
  | none =>
    let nf := read_uint s
    let fl := read_bitmask_flags nf.1 nf.2 []
    let sig : BitmaskSig := { id := id, flags := fl.1 }
    let s := { fl.2 with bitmasks := fl.2.bitmasks.set id (some sig), m_bitmaskSigOffsets := insertOffset fl.2.m_bitmaskSigOffsets offset }
    let vl := read_uint s
    (Value.bitmask sig vl.1, vl.2)
  | some sig =>
    if s.m_bitmaskSigOffsets.contains offset then
      let nf := read_uint s
      let fl := read_bitmask_flags nf.1 nf.2 []
      let vl := read_uint fl.2
      (Value.bitmask sig vl.1, vl.2)
    else
      let vl := read_uint s
      (Value.bitmask sig vl.1, vl.2)

/-- Modelled from the spec: `Value::toSInt` lives in `trace_model.cpp`, which
is not under `src/`; spec section 4.4 says the enum body value is "decoded,
converted to signed integer".  Only the signed/unsigned numeric variants carry
a number to convert; the conversion of the remaining variants (and of the
NULL value produced at EOF) is immaterial to every claim and is taken as 0. -/
def toSInt : Option Value → Int
  | some (Value.sint v) => v
  | some (Value.uint v) => Int.ofNat v
  | some (Value.bool b) => if b then 1 else 0
  | _ => 0

mutual

/-- `Parser::parse_value`: dispatch on the leading tag byte.  EOF produces
"no value" (`ok none`); an unknown tag is fatal. -/
def parse_value : Nat → VState → OutV (Option Value)
  | 0, _ => OutV.spin
  | fuel + 1, s =>
    match getc s with
    | (none, s) => OutV.ok none s
    | (some c, s) =>
      if c = TYPE_NULL then OutV.ok (some Value.null) s
      else if c = TYPE_FALSE then OutV.ok (some (Value.bool false)) s
      else if c = TYPE_TRUE then OutV.ok (some (Value.bool true)) s
      else if c = TYPE_SINT then
        let r := parse_sint s
        OutV.ok (some r.1) r.2
      else if c = TYPE_UINT then
        let r := parse_uint s
        OutV.ok (some r.1) r.2
      else if c = TYPE_FLOAT then
        let r := parse_float s
        OutV.ok (some r.1) r.2
      else if c = TYPE_DOUBLE then
        let r := parse_double s
        OutV.ok (some r.1) r.2
      else if c = TYPE_STRING then
        let r := parse_string s
        OutV.ok (some r.1) r.2
      else if c = TYPE_ENUM then parse_enum fuel s
      else if c = TYPE_BITMASK then
        let r := parse_bitmask s
        OutV.ok (some r.1) r.2
      else if c = TYPE_ARRAY then parse_array fuel s
      else if c = TYPE_STRUCT then parse_struct fuel s
      else if c = TYPE_BLOB then
        let r := parse_blob s
        OutV.ok (some r.1) r.2
      else if c = TYPE_POINTER then
        let r := parse_pointer s
        OutV.ok (some r.1) r.2
      else OutV.fatal s

/-- `Parser::parse_enum`: signature reference against the enum table;
the body (if one is parsed) is `{name, value}` with the value recursively
decoded. -/
def parse_enum : Nat → VState → OutV (Option Value)
  | 0, _ => OutV.spin
  | fuel + 1, s =>
    let r := read_uint s
    let id := r.1
    let lk := lookup s.enums id
    let s := { r.2 with enums := lk.2 }
    let offset := s.offset
    match lk.1 with
    | none =>
      let nm := read_string s
      match parse_value fuel nm.2 with
      | OutV.ok v s =>
        let sig : EnumSig := { id := id, name := nm.1, value := toSInt v }
        let s := { s with enums := s.enums.set id (some sig), m_enumSigOffsets := insertOffset s.m_enumSigOffsets offset }
        OutV.ok (some (Value.enum sig)) s
      | OutV.fatal s => OutV.fatal s
      | OutV.spin => OutV.spin
    | some sig =>
      if s.m_enumSigOffsets.contains offset then
        let nm := read_string s
        match parse_value fuel nm.2 with
        | OutV.ok _ s => OutV.ok (some (Value.enum sig)) s
        | OutV.fatal s => OutV.fatal s
        | OutV.spin => OutV.spin
      else OutV.ok (some (Value.enum sig)) s

/-- `Parser::parse_array`. -/
def parse_array : Nat → VState → OutV (Option Value)
  | 0, _ => OutV.spin
  | fuel + 1, s =>
    let r := read_uint s
    match parse_values_into fuel r.1 r.2 [] with
    | OutV.ok vs s => OutV.ok (some (Value.array vs)) s
    | OutV.fatal s => OutV.fatal s
    | OutV.spin => OutV.spin

/-- The element loops of `parse_array` and `parse_struct`: `count` recursive
`parse_value` calls, collected in order. -/
def parse_values_into : Nat → Nat → VState → List (Option Value) → OutV (List (Option Value))
  | 0, _, _, _ => OutV.spin
  | _ + 1, 0, s, acc => OutV.ok acc.reverse s
  | fuel + 1, n + 1, s, acc =>
    match parse_value fuel s with
    | OutV.ok v s => parse_values_into fuel n s (v :: acc)
    | OutV.fatal s => OutV.fatal s
    | OutV.spin => OutV.spin

/-- `Parser::parse_struct`: signature reference against the struct table,
then one value per member of the (existing or just-installed) signature. -/
def parse_struct : Nat → VState → OutV (Option Value)
  | 0, _ => OutV.spin
  | fuel + 1, s =>
    let r := read_uint s
    let id := r.1
    let lk := lookup s.structs id
    let s := { r.2 with structs := lk.2 }
    let offset := s.offset
    match lk.1 with
    | none =>
      let nm := read_string s
      let cnt := read_uint nm.2
      let mns := read_strings cnt.1 cnt.2 []
      let sig : StructSig := { id := id, name := nm.1, member_names := mns.1 }
      let s := { mns.2 with structs := mns.2.structs.set id (some sig), m_structSigOffsets := insertOffset mns.2.m_structSigOffsets offset }
      match parse_values_into fuel sig.member_names.length s [] with
      | OutV.ok vs s => OutV.ok (some (Value.struct sig vs)) s
      | OutV.fatal s => OutV.fatal s
      | OutV.spin => OutV.spin
    | some sig =>
      if s.m_structSigOffsets.contains offset then
        let nm := read_string s
        let cnt := read_uint nm.2
        let mns := read_strings cnt.1 cnt.2 []
        match parse_values_into fuel sig.member_names.length mns.2 [] with
        | OutV.ok vs s => OutV.ok (some (Value.struct sig vs)) s
        | OutV.fatal s => OutV.fatal s
        | OutV.spin => OutV.spin
      else
        match parse_values_into fuel sig.member_names.length s [] with
        | OutV.ok vs s => OutV.ok (some (Value.struct sig vs)) s
        | OutV.fatal s => OutV.fatal s
        | OutV.spin => OutV.spin

end

/-- Outcome of a call-level parsing function, over the full parser state. -/
inductive OutP (α : Type) where
  | ok (a : α) (s : ParserState)
  | fatal (s : ParserState)
  | spin

/-- The resize-and-store of `Parser::parse_arg`:
`if (index >= args.size()) args.resize(index + 1); args[index] = value;`. -/
def argsStore (args : List (Option Value)) (index : Nat) (value : Option Value) :
    List (Option Value) :=
  let args := if args.length ≤ index then args ++ List.replicate (index + 1 - args.length) none else args
  args.set index value

/-- `Parser::parse_arg`. -/
def parse_arg (fuel : Nat) (call : Call) (s : VState) : OutV Call :=
  let r := read_uint s
  match parse_value fuel r.2 with
  | OutV.ok value s => OutV.ok { call with args := argsStore call.args r.1 value } s
  | OutV.fatal s => OutV.fatal s
  | OutV.spin => OutV.spin

/-- `Parser::parse_call_details`: the inner tag loop.  `ok (some call)` is the
`return true` at `CALL_END`; `ok none` is the `return false` at EOF (the
caller then discards the call). -/
def parse_call_details : Nat → Call → VState → OutV (Option Call)
  | 0, _, _ => OutV.spin
  | fuel + 1, call, s =>
    match getc s with
    | (none, s) => OutV.ok none s
    | (some c, s) =>
      if c = CALL_END then OutV.ok (some call) s
      else if c = CALL_ARG then
        match parse_arg fuel call s with
        | OutV.ok call s => parse_call_details fuel call s
        | OutV.fatal s => OutV.fatal s
        | OutV.spin => OutV.spin
      else if c = CALL_RET then
        match parse_value fuel s with
        | OutV.ok v s => parse_call_details fuel { call with ret := v } s
        | OutV.fatal s => OutV.fatal s
        | OutV.spin => OutV.spin
      else OutV.fatal s

/-- Lines 146-173 of `Parser::parse_enter`: read the function id and resolve
the signature reference against the function table (`if (!sig || callWithSig)`
with the body parsed and installed, parsed and discarded, or absent). -/
def parse_enter_sig (s : ParserState) : FunctionSig × ParserState :=
  let r := read_uint s.v
  let id := r.1
  let lk := lookup s.functions id
  let offset := r.2.offset
  match lk.1 with
  | none =>
    let nm := read_string r.2
    let na := read_uint nm.2
    let ans := read_strings na.1 na.2 []
    let sig : FunctionSig := { id := id, name := nm.1, arg_names := ans.1 }
    (sig, { s with v := ans.2, functions := lk.2.set id (some sig), m_callSigOffsets := insertOffset s.m_callSigOffsets offset })
  | some sig =>
    if s.m_callSigOffsets.contains offset then
      let nm := read_string r.2
      let na := read_uint nm.2
      let ans := read_strings na.1 na.2 []
      (sig, { s with v := ans.2, functions := lk.2 })
    else
      (sig, { s with v := r.2, functions := lk.2 })

/-- Lines 180-184 of `Parser::parse_enter`: run the call details; on success
push the call onto the pending registry, on EOF discard it. -/
def parse_enter_finish (fuel : Nat) (call : Call) (s : ParserState) : OutP Unit :=
  match parse_call_details fuel call s.v with
  | OutV.ok (some call) v => OutP.ok () { s with v := v, calls := s.calls ++ [call] }
  | OutV.ok none v => OutP.ok () { s with v := v }
  | OutV.fatal v => OutP.fatal { s with v := v }
  | OutV.spin => OutP.spin

/-- `Parser::parse_enter`: signature reference, then allocate the call with
`call->no = next_call_no++` (logged in the ghost field `assigned`), then the
details. -/
def parse_enter (fuel : Nat) (s : ParserState) : OutP Unit :=
  let r := parse_enter_sig s
  let call : Call := { no := r.2.next_call_no, sig := r.1, args := [], ret := none }
  let s := { r.2 with next_call_no := r.2.next_call_no + 1, assigned := r.2.assigned ++ [call.no] }
  parse_enter_finish fuel call s

/-- The removal loop of `Parser::parse_leave`: find the first pending call
with the given number and erase it. -/
def removeFirstCall (no : Nat) : List Call → Option Call × List Call
  | [] => (none, [])
  | c :: cs =>
    if c.no = no then (some c, cs)
    else
      let r := removeFirstCall no cs
      (r.1, c :: r.2)

/-- `Parser::parse_leave`: read the call number, remove the matching pending
call (if any; otherwise return NULL at once, details unconsumed), then run the
details, returning the call on success and NULL on EOF.

Modelling note: the source stores the decoded number into
`unsigned call_no` (32 bits) before the comparison, while this model compares
the unbounded varint value.  The two agree on every wire number below
`2 ^ 32`; since `Call::no` is a `uint32` (spec section 3) and this model's
`no` values are assigned from the incrementing `next_call_no`, every number a
pending call can actually carry lies in that range, and each theorem below
about `parse_leave` confines the wire number to it. -/
def parse_leave (fuel : Nat) (s : ParserState) : OutP (Option Call) :=
  let r := read_uint s.v
  let s := { s with v := r.2 }
  match removeFirstCall r.1 s.calls with
  | (none, _) => OutP.ok none s
  | (some call, remaining) =>
    let s := { s with calls := remaining }
    match parse_call_details fuel call s.v with
    | OutV.ok (some call) v => OutP.ok (some call) { s with v := v }
    | OutV.ok none v => OutP.ok none { s with v := v }
    | OutV.fatal v => OutP.fatal { s with v := v }
    | OutV.spin => OutP.spin

/-- `Parser::parse_call`: the outer event loop.  ENTER events are consumed
without returning; a LEAVE event returns `parse_leave`'s result; EOF prints a
warning per still-pending call (logged in the ghost field `warned`) and
returns NULL, the end-of-stream sentinel; an unknown event byte is fatal. -/
def parse_call : Nat → ParserState → OutP (Option Call)
  | 0, _ => OutP.spin
  | fuel + 1, s =>
    match getc s.v with
    | (none, v) => OutP.ok none { s with v := v, warned := s.warned ++ s.calls.map Call.no }
    | (some c, v) =>
      let s := { s with v := v }
      if c = EVENT_ENTER then
        match parse_enter fuel s with
        | OutP.ok _ s => parse_call fuel s
        | OutP.fatal s => OutP.fatal s
        | OutP.spin => OutP.spin
      else if c = EVENT_LEAVE then parse_leave fuel s
      else OutP.fatal s

/-- `k` successive `parse_call` invocations, collecting each returned
`Call *` (or NULL).  Stops early on a fatal outcome or fuel exhaustion. -/
def parseCallsN : Nat → Nat → ParserState → List (Option Call) × ParserState
  | 0, _, s => ([], s)
  | k + 1, fuel, s =>
    match parse_call fuel s with
    | OutP.ok c s => let r := parseCallsN k fuel s; (c :: r.1, r.2)
    | OutP.fatal s => ([], s)
    | OutP.spin => ([], s)

/-- A fresh `VState` on the given byte stream. -/
def mkVState (bytes : List Nat) : VState :=
  { stream := bytes, offset := 0, structs := [], enums := [], bitmasks := [], m_structSigOffsets := [], m_enumSigOffsets := [], m_bitmaskSigOffsets := [] }

/-- The parser right after `Parser::open` (the constructor zeroes
`next_call_no`; `open` has already consumed the leading version varint, so
`bytes` is the event stream). -/
def initState (bytes : List Nat) : ParserState :=
  { v := mkVState bytes, functions := [], m_callSigOffsets := [], calls := [], next_call_no := 0, assigned := [], warned := [] }

/-- Structural worker for `encodeUint`: the first argument only drives
termination (any bound of at least the digit count works, since the payload
shrinks by a factor of 128 per digit). -/
def encodeUintAux : Nat → Nat → List Nat
  | 0, n => [n]
  | fuel + 1, n => if n < 0x80 then [n] else (n % 0x80 + 0x80) :: encodeUintAux fuel (n / 0x80)

/-- Modelled from the spec: the little-endian base-128 varint encoding
(section 6, "Varint (uint)"); the writer lives outside this repository's
`src/`. -/
def encodeUint (n : Nat) : List Nat := encodeUintAux n n

/-- Modelled from the spec: the wire string encoding `len(uint) || len bytes`
(section 6). -/
def encodeString (bs : List Nat) : List Nat :=
  encodeUint bs.length ++ bs

/-- The value returned by an `ok` outcome. -/
def OutP.val? {α : Type} : OutP α → Option α
  | OutP.ok a _ => some a
  | _ => none

/-- The state carried by an `ok` or `fatal` outcome. -/
def OutP.state? {α : Type} : OutP α → Option ParserState
  | OutP.ok _ s => some s
  | OutP.fatal s => some s
  | OutP.spin => none

/-- `P` holds of the state carried by the outcome (vacuous on fuel
exhaustion, which carries no state). -/
def OutP.GhostStep {α : Type} : OutP α → (ParserState → Prop) → Prop
  | OutP.ok _ s, P => P s
  | OutP.fatal s, P => P s
  | OutP.spin, _ => True

/-- The call-numbering invariant: the ghost log of numbers assigned at ENTER
events is exactly `0, 1, ..., next_call_no - 1` in order. -/
def GhostInv (s : ParserState) : Prop :=
  s.assigned = List.range s.next_call_no

/- ------------------------------------------------------------------ -/
/- Theorems.                                                          -/
/- ------------------------------------------------------------------ -/

/-- Disjoint bit ranges: OR-ing a value below `2 ^ k` with a multiple of
`2 ^ k` is addition. -/
theorem lor_mul_pow_eq_add {k value x : Nat} (h : value < 2 ^ k) :
    value ||| x * 2 ^ k = value + x * 2 ^ k := by
  calc value ||| x * 2 ^ k = 2 ^ k * x ||| value := by
        rw [Nat.lor_comm, Nat.mul_comm]
    _ = value + x * 2 ^ k := by rw [← Nat.mul_add_lt_is_or h x]; ring

/-- One step of the decoding loop on a final (continuation bit clear) byte. -/
theorem readUintLoop_small {n : Nat} (h : n < 0x80) (value shift : Nat) (rest : List Nat)
    (hv : value < 2 ^ shift) (hlt : value + n * 2 ^ shift < 2 ^ 64) :
    readUintLoop (n :: rest) value shift = (value + n * 2 ^ shift, rest) := by
  have hand : n &&& 0x7f = n := by
    have h7 : (0x7f : Nat) = 2 ^ 7 - 1 := by norm_num
    rw [h7, Nat.and_pow_two_sub_one_eq_mod, Nat.mod_eq_of_lt (by omega)]
  have hcont : n &&& 0x80 = 0 := by
    have h8 : (0x80 : Nat) = 2 ^ 7 := by norm_num
    rw [h8, Nat.and_two_pow, Nat.testBit_lt_two_pow (by omega)]
    rfl
  have hmod : (n <<< shift) % 2 ^ 64 = n * 2 ^ shift := by
    rw [Nat.shiftLeft_eq, Nat.mod_eq_of_lt (by omega)]
  simp only [readUintLoop, hand, hmod, hcont, ne_eq, not_true_eq_false, if_false,
    ite_false]
  rw [lor_mul_pow_eq_add hv]

/-- Decoding inverts the varint encoding, at any accumulator state that has
room for the remaining payload. -/
theorem readUintLoop_encodeUintAux : ∀ (fuel : Nat), ∀ n ≤ fuel,
    ∀ (value shift : Nat) (rest : List Nat),
    value < 2 ^ shift → value + n * 2 ^ shift < 2 ^ 64 →
    readUintLoop (encodeUintAux fuel n ++ rest) value shift = (value + n * 2 ^ shift, rest) := by
  intro fuel
  induction fuel with
  | zero =>
    intro n hn value shift rest hv hlt
    have h0 : n = 0 := by omega
    subst h0
    simp only [encodeUintAux, List.cons_append, List.nil_append]
    exact readUintLoop_small (by norm_num) value shift rest hv hlt
  | succ fuel ih =>
    intro n hn value shift rest hv hlt
    by_cases h : n < 0x80
    · simp only [encodeUintAux, if_pos h, List.cons_append, List.nil_append]
      exact readUintLoop_small h value shift rest hv hlt
    · simp only [encodeUintAux, if_neg h, List.cons_append]
      have hand : (n % 0x80 + 0x80) &&& 0x7f = n % 0x80 := by
        have h7 : (0x7f : Nat) = 2 ^ 7 - 1 := by norm_num
        rw [h7, Nat.and_pow_two_sub_one_eq_mod]
        have h27 : (2 : Nat) ^ 7 = 0x80 := by norm_num
        rw [h27]
        omega
      have hcont : (n % 0x80 + 0x80) &&& 0x80 ≠ 0 := by
        have h8 : (n % 0x80 + 0x80) &&& 0x80 = (n % 0x80 + 0x80) &&& 2 ^ 7 := by norm_num
        rw [h8, Nat.and_two_pow, Nat.testBit_to_div_mod]
        have hdiv : (n % 0x80 + 0x80) / 2 ^ 7 = 1 := by
          have h27 : (2 : Nat) ^ 7 = 0x80 := by norm_num
          rw [h27]
          omega
        rw [hdiv]
        simp
      have hmul : n % 0x80 * 2 ^ shift ≤ n * 2 ^ shift :=
        Nat.mul_le_mul_right _ (Nat.mod_le n _)
      have hmod : ((n % 0x80) <<< shift) % 2 ^ 64 = n % 0x80 * 2 ^ shift := by
        rw [Nat.shiftLeft_eq, Nat.mod_eq_of_lt (by omega)]
      have hdm : 0x80 * (n / 0x80) + n % 0x80 = n := Nat.div_add_mod n 0x80
      have hpow : (2 : Nat) ^ (shift + 7) = 2 ^ shift * 0x80 := by
        rw [pow_add]; norm_num
      have hsmall : n % 0x80 * 2 ^ shift ≤ 0x7f * 2 ^ shift :=
        Nat.mul_le_mul_right _ (by omega)
      have hacc : value + n % 0x80 * 2 ^ shift < 2 ^ (shift + 7) := by
        rw [hpow]
        omega
      have hkey : value + n % 0x80 * 2 ^ shift + n / 0x80 * 2 ^ (shift + 7)
          = value + n * 2 ^ shift := by
        rw [hpow]
        calc value + n % 0x80 * 2 ^ shift + n / 0x80 * (2 ^ shift * 0x80)
            = value + (0x80 * (n / 0x80) + n % 0x80) * 2 ^ shift := by ring
          _ = value + n * 2 ^ shift := by rw [hdm]
      have hrec : n / 0x80 ≤ fuel := by
        have := Nat.div_lt_self (n := n) (by omega) (show 1 < 0x80 by omega)
        omega
      have ih' := ih (n / 0x80) hrec (value + n % 0x80 * 2 ^ shift) (shift + 7) rest
        hacc (by omega)
      simp only [readUintLoop, hand, hmod]
      rw [if_pos hcont, lor_mul_pow_eq_add hv, ih', hkey]

/-- Varint round-trip from a fresh accumulator. -/
theorem readUintLoop_encodeUint_zero {n : Nat} (h : n < 2 ^ 64) (rest : List Nat) :
    readUintLoop (encodeUint n ++ rest) 0 0 = (n, rest) := by
  have := readUintLoop_encodeUintAux n n (Nat.le_refl n) 0 0 rest (by omega)
    (by simpa using h)
  simpa [encodeUint] using this

/-- A byte below `0x80` is its own varint encoding. -/
theorem readUintLoop_byte {a : Nat} (h : a < 0x80) (rest : List Nat) :
    readUintLoop (a :: rest) 0 0 = (a, rest) := by
  have h2 := readUintLoop_small h 0 0 rest (by norm_num) (by omega)
  simpa using h2

/-- The decoded value stays within 64 bits. -/
theorem readUintLoop_lt : ∀ (bs : List Nat) (value shift : Nat), value < 2 ^ 64 →
    (readUintLoop bs value shift).1 < 2 ^ 64 := by
  intro bs
  induction bs with
  | nil => intro value shift h; simpa [readUintLoop] using h
  | cons c cs ih =>
    intro value shift h
    have hlt : value ||| (((c &&& 0x7f) <<< shift) % 2 ^ 64) < 2 ^ 64 :=
      Nat.or_lt_two_pow h (Nat.mod_lt _ (by norm_num))
    simp only [readUintLoop]
    by_cases hc : c &&& 0x80 ≠ 0
    · rw [if_pos hc]; exact ih _ _ hlt
    · rw [if_neg hc]; exact hlt

/-- When every byte has the continuation bit set, the loop runs to the end of
the stream. -/
theorem readUintLoop_consumesAll : ∀ (bs : List Nat), (∀ b ∈ bs, b &&& 0x80 ≠ 0) →
    ∀ (value shift : Nat), (readUintLoop bs value shift).2 = [] := by
  intro bs
  induction bs with
  | nil => intro _ value shift; simp [readUintLoop]
  | cons c cs ih =>
    intro h value shift
    simp only [readUintLoop]
    rw [if_pos (h c (by simp))]
    exact ih (fun b hb => h b (by simp [hb])) _ _

theorem GhostStep.mono {α : Type} {o : OutP α} {P Q : ParserState → Prop}
    (h : o.GhostStep P) (f : ∀ s, P s → Q s) : o.GhostStep Q := by
  cases o with
  | ok a s => exact f s h
  | fatal s => exact f s h
  | spin => trivial

/-- The signature-reference step of `parse_enter` touches neither the pending
registry nor the numbering state nor the ghost logs. -/
theorem parse_enter_sig_ghost (s : ParserState) :
    (parse_enter_sig s).2.next_call_no = s.next_call_no ∧
    (parse_enter_sig s).2.assigned = s.assigned ∧
    (parse_enter_sig s).2.calls = s.calls ∧
    (parse_enter_sig s).2.warned = s.warned := by
  simp only [parse_enter_sig]
  cases hlk : (lookup s.functions (read_uint s.v).1).1 with
  | none => exact ⟨rfl, rfl, rfl, rfl⟩
  | some sig =>
    by_cases hw : s.m_callSigOffsets.contains (read_uint s.v).2.offset
    · simp only [hw, if_true]
      exact ⟨trivial, trivial, trivial, trivial⟩
    · simp only [hw, if_false, Bool.false_eq_true]
      exact ⟨trivial, trivial, trivial, trivial⟩

/-- The detail phase of `parse_enter` never changes the numbering state or
ghost logs (it only appends to `calls` on success). -/
theorem parse_enter_finish_ghost (fuel : Nat) (call : Call) (s : ParserState) :
    (parse_enter_finish fuel call s).GhostStep fun t =>
      t.next_call_no = s.next_call_no ∧ t.assigned = s.assigned := by
  unfold parse_enter_finish
  cases parse_call_details fuel call s.v with
  | ok a v => cases a <;> exact ⟨rfl, rfl⟩
  | fatal v => exact ⟨rfl, rfl⟩
  | spin => trivial

/-- `parse_enter` assigns exactly `next_call_no` and increments it by one, in
every outcome that carries a state. -/
theorem parse_enter_ghost (fuel : Nat) (s : ParserState) :
    (parse_enter fuel s).GhostStep fun t =>
      t.next_call_no = s.next_call_no + 1 ∧
      t.assigned = s.assigned ++ [s.next_call_no] := by
  unfold parse_enter
  obtain ⟨h1, h2, -, -⟩ := parse_enter_sig_ghost s
  refine GhostStep.mono (parse_enter_finish_ghost fuel _ _) ?_
  intro t ht
  obtain ⟨ha, hb⟩ := ht
  constructor
  · rw [ha]; simp [h1]
  · rw [hb]; simp [h1, h2]

/-- `parse_leave` never changes the numbering state or the ghost assignment
log. -/
theorem parse_leave_ghost (fuel : Nat) (s : ParserState) :
    (parse_leave fuel s).GhostStep fun t =>
      t.next_call_no = s.next_call_no ∧ t.assigned = s.assigned := by
  simp only [parse_leave]
  rcases hrm : removeFirstCall (read_uint s.v).1 s.calls with ⟨found, remaining⟩
  cases found with
  | none => exact ⟨rfl, rfl⟩
  | some call =>
    dsimp only
    cases hd : parse_call_details fuel call (read_uint s.v).2 with
    | ok a v => cases a <;> exact ⟨rfl, rfl⟩
    | fatal v => exact ⟨rfl, rfl⟩
    | spin => trivial

/-- One `parse_call` invocation preserves the call-numbering invariant. -/
theorem parse_call_ghostInv : ∀ (fuel : Nat) (s : ParserState), GhostInv s →
    (parse_call fuel s).GhostStep GhostInv := by
  intro fuel
  induction fuel with
  | zero => intro s _; trivial
  | succ fuel ih =>
    intro s hInv
    unfold parse_call
    cases hst : s.v.stream with
    | nil =>
      have hg : getc s.v = (none, s.v) := by simp [getc, hst]
      simp only [hg]
      exact hInv
    | cons c rest =>
      have hg : getc s.v = (some c, { s.v with stream := rest, offset := s.v.offset + 1 }) := by
        simp [getc, hst]
      simp only [hg]
      have hInv' : s.assigned = List.range s.next_call_no := hInv
      by_cases hc : c = EVENT_ENTER
      · rw [if_pos hc]
        have henter := parse_enter_ghost fuel
          { s with v := { s.v with stream := rest, offset := s.v.offset + 1 } }
        cases he : parse_enter fuel
            { s with v := { s.v with stream := rest, offset := s.v.offset + 1 } } with
        | ok a t =>
          rw [he] at henter
          obtain ⟨ha, hb⟩ := henter
          dsimp only at ha hb
          refine ih t ?_
          show t.assigned = List.range t.next_call_no
          rw [ha, hb, hInv', List.range_succ]
        | fatal t =>
          rw [he] at henter
          obtain ⟨ha, hb⟩ := henter
          dsimp only at ha hb
          show t.assigned = List.range t.next_call_no
          rw [ha, hb, hInv', List.range_succ]
        | spin => trivial
      · rw [if_neg hc]
        by_cases hl : c = EVENT_LEAVE
        · rw [if_pos hl]
          refine GhostStep.mono (parse_leave_ghost fuel _) ?_
          intro t ht
          obtain ⟨ha, hb⟩ := ht
          dsimp only at ha hb
          show t.assigned = List.range t.next_call_no
          rw [ha, hb, hInv']
        · rw [if_neg hl]
          exact hInv

/-- Any number of `parse_call` invocations preserve the call-numbering
invariant. -/
theorem parseCallsN_ghostInv : ∀ (k fuel : Nat) (s : ParserState), GhostInv s →
    GhostInv (parseCallsN k fuel s).2 := by
  intro k
  induction k with
  | zero => intro fuel s h; exact h
  | succ k ih =>
    intro fuel s h
    unfold parseCallsN
    have hstep := parse_call_ghostInv fuel s h
    cases hp : parse_call fuel s with
    | ok a t =>
      rw [hp] at hstep
      exact ih fuel t hstep
    | fatal t =>
      rw [hp] at hstep
      exact hstep
    | spin => exact h

/-- Claim C2: for the event sequence `ENTER(A), ENTER(B), LEAVE(B), LEAVE(A)`
(here function A is id 0, name `"A"`, one argument with value `UInt 42`;
function B is id 1, name `"B"`, one argument with value `UInt 7`), successive
`parse_call` invocations emit call B first and call A second, each carrying
the argument values decoded for it: calls are emitted in LEAVE order, matched
to their ENTER by call number. -/
theorem claim_C2_out_of_order_emission :
    (parseCallsN 2 80 (initState
      [0, 0, 1, 65, 1, 1, 120, 1, 0, 4, 42, 0,
       0, 1, 1, 66, 1, 1, 121, 1, 0, 4, 7, 0,
       1, 1, 0,
       1, 0, 0])).1 =
    [some { no := 1, sig := { id := 1, name := [66], arg_names := [[121]] },
            args := [some (Value.uint 7)], ret := none },
     some { no := 0, sig := { id := 0, name := [65], arg_names := [[120]] },
            args := [some (Value.uint 42)], ret := none }] := by
  simp [parseCallsN, parse_call, parse_enter, parse_enter_sig, parse_enter_finish,
    parse_leave, parse_call_details, parse_arg, parse_value, parse_uint, parse_sint,
    read_uint, read_string, read_bytes, read_strings, readUintLoop_byte, getc, advance,
    lookup, insertOffset, argsStore, removeFirstCall, initState, mkVState,
    EVENT_ENTER, EVENT_LEAVE, CALL_END, CALL_ARG, CALL_RET,
    TYPE_NULL, TYPE_FALSE, TYPE_TRUE, TYPE_SINT, TYPE_UINT, TYPE_FLOAT, TYPE_DOUBLE,
    TYPE_STRING, TYPE_BLOB, TYPE_ENUM, TYPE_BITMASK, TYPE_ARRAY, TYPE_STRUCT, TYPE_POINTER]

/-- Claim C3: over any stream and any number of `parse_call` invocations on a
fresh parser, the ghost log of call numbers assigned at ENTER events (in
stream order) is exactly `0, 1, ..., len - 1`: every ENTER's call gets a
number equal to the count of prior ENTER events, starting at 0, and the
assignment is monotonically increasing across the parser's lifetime. -/
theorem claim_C3_call_numbering (k fuel : Nat) (bytes : List Nat) :
    (parseCallsN k fuel (initState bytes)).2.assigned =
      List.range (parseCallsN k fuel (initState bytes)).2.assigned.length ∧
    List.Pairwise (· < ·) (parseCallsN k fuel (initState bytes)).2.assigned := by
  have h := parseCallsN_ghostInv k fuel (initState bytes) (by simp [GhostInv, initState])
  have h2 : (parseCallsN k fuel (initState bytes)).2.assigned
      = List.range (parseCallsN k fuel (initState bytes)).2.next_call_no := h
  constructor
  · rw [h2, List.length_range]
  · rw [h2]
    exact List.pairwise_lt_range _

/-- Claim C4 (code evidence): on a `DOUBLE`-tagged value the parser does read
8 raw bytes, but it produces the single-precision `Float` carrier
(`new Float(value)` in `Parser::parse_double`), not a double-precision
`Double` variant as the spec's value model requires — the claim's
"Double value preserving all 64 bits" is contradicted by the source. -/
theorem claim_C4_double_parsed_into_float (fuel : Nat)
    (b1 b2 b3 b4 b5 b6 b7 b8 : Nat) (rest : List Nat) :
    parse_value (fuel + 1)
        (mkVState (TYPE_DOUBLE :: b1 :: b2 :: b3 :: b4 :: b5 :: b6 :: b7 :: b8 :: rest)) =
      OutV.ok (some (Value.float (FloatRaw.ofDoubleBytes [b1, b2, b3, b4, b5, b6, b7, b8])))
        { stream := rest, offset := 9, structs := [], enums := [], bitmasks := [],
          m_structSigOffsets := [], m_enumSigOffsets := [], m_bitmaskSigOffsets := [] } := by
  simp only [parse_value, getc, parse_double, read_bytes, advance, mkVState,
    TYPE_NULL, TYPE_FALSE, TYPE_TRUE, TYPE_SINT, TYPE_UINT, TYPE_FLOAT, TYPE_DOUBLE,
    List.take, List.drop, List.length, OutV.ok.injEq, Option.some.injEq]
  norm_num
  omega

/-- Claim C5 (counterexample): a LEAVE event whose call number (5) has no
matching pending call makes `parse_call` return NULL — `OutP.ok none`, the
very same sentinel an exhausted stream produces (second conjunct) — and the
leave's own `CALL_END` byte together with all subsequent events (a complete
ENTER/LEAVE pair for a new call) is left unconsumed, so the parser does not
skip the LEAVE and continue; the claim's "rather than signalling
end-of-stream, and parsing of subsequent events can continue" is false. -/
theorem claim_C5_counterexample :
    parse_call 50 (initState [1, 5, 0, 0, 0, 1, 103, 0, 0, 1, 0, 0]) =
      OutP.ok none { v := { stream := [0, 0, 0, 1, 103, 0, 0, 1, 0, 0], offset := 2, structs := [], enums := [], bitmasks := [], m_structSigOffsets := [], m_enumSigOffsets := [], m_bitmaskSigOffsets := [] }, functions := [], m_callSigOffsets := [], calls := [], next_call_no := 0, assigned := [], warned := [] } ∧
    parse_call 50 (initState []) = OutP.ok none (initState []) := by
  constructor
  · simp [parse_call, parse_leave, read_uint, readUintLoop_byte, getc, advance,
      removeFirstCall, initState, mkVState, EVENT_ENTER, EVENT_LEAVE]
  · simp [parse_call, getc, initState, mkVState]

/-- Claim C7: applying `parse_arg`'s store at indices 0, 3, 1 (in that order)
yields an argument vector of length 4 with positions 0, 1, 3 set and
position 2 unset — both for arbitrary decoded values at the store level (first
conjunct) and end-to-end for a detail stream `CALL_ARG 0 (UInt 10),
CALL_ARG 3 (UInt 20), CALL_ARG 1 (UInt 30), CALL_END` (second conjunct). -/
theorem claim_C7_sparse_args :
    (∀ v0 v3 v1 : Value,
      argsStore (argsStore (argsStore [] 0 (some v0)) 3 (some v3)) 1 (some v1) =
        [some v0, some v1, none, some v3]) ∧
    parse_call_details 40
        { no := 0, sig := { id := 0, name := [], arg_names := [] }, args := [], ret := none }
        (mkVState [1, 0, 4, 10, 1, 3, 4, 20, 1, 1, 4, 30, 0]) =
      OutV.ok (some { no := 0, sig := { id := 0, name := [], arg_names := [] }, args := [some (Value.uint 10), some (Value.uint 30), none, some (Value.uint 20)], ret := none }) { stream := [], offset := 13, structs := [], enums := [], bitmasks := [], m_structSigOffsets := [], m_enumSigOffsets := [], m_bitmaskSigOffsets := [] } := by
  constructor
  · intro v0 v3 v1
    simp [argsStore]
  · simp [parse_call_details, parse_arg, parse_value, parse_uint,
      read_uint, read_bytes, readUintLoop_byte, getc, advance, argsStore, mkVState,
      CALL_END, CALL_ARG, CALL_RET,
      TYPE_NULL, TYPE_FALSE, TYPE_TRUE, TYPE_SINT, TYPE_UINT]

/-- The erase loop of `parse_leave` finds nothing when no pending call bears
the requested number, and leaves the registry unchanged. -/
theorem removeFirstCall_not_found (n : Nat) : ∀ (cs : List Call),
    (∀ c ∈ cs, c.no ≠ n) → removeFirstCall n cs = (none, cs) := by
  intro cs
  induction cs with
  | nil => intro _; rfl
  | cons c cs ih =>
    intro h
    simp only [removeFirstCall]
    rw [if_neg (h c (by simp)), ih (fun d hd => h d (by simp [hd]))]

/-- Claim C5 (amended): when a LEAVE event carries a call number with no
matching entry in the pending-call registry, `parse_leave` returns NULL
immediately — so `parse_call` returns `OutP.ok none`, the same sentinel as
end-of-stream — without consuming the leave's call details (only the event
byte and the call-number varint are consumed) and without touching the
pending registry; subsequent events are not realigned or skipped over.
The wire number is confined to the 32-bit range of the source's
`unsigned call_no` (line 189) — the range every `Call::no` (a `uint32`,
spec section 3) lies in — so the comparison performed here agrees with the
source's truncated one. -/
theorem claim_C5_amended (fuel : Nat) (s : ParserState) (n : Nat) (rest : List Nat)
    (hstream : s.v.stream = EVENT_LEAVE :: (encodeUint n ++ rest))
    (hn : n < 2 ^ 32)
    (hno : ∀ c ∈ s.calls, c.no ≠ n) :
    parse_call (fuel + 1) s =
      OutP.ok none { s with v := { s.v with stream := rest, offset := s.v.offset + 1 + (encodeUint n).length } } := by
  unfold parse_call
  have hg : getc s.v = (some EVENT_LEAVE,
      { s.v with stream := encodeUint n ++ rest, offset := s.v.offset + 1 }) := by
    simp [getc, hstream]
  simp only [hg]
  simp only [EVENT_ENTER, EVENT_LEAVE, if_true]
  norm_num
  have hru : read_uint { s.v with stream := encodeUint n ++ rest, offset := s.v.offset + 1 }
      = (n, { s.v with stream := rest, offset := s.v.offset + 1 + (encodeUint n).length }) := by
    simp only [read_uint, advance,
      readUintLoop_encodeUint_zero (show n < 2 ^ 64 by omega)]
    simp [List.length_append]
  simp only [parse_leave, hru]
  rw [removeFirstCall_not_found n s.calls hno]

/-- Witness for claim C5 (amended): a fresh parser fed
`LEAVE, 5, CALL_END` returns the no-call sentinel with the pending registry
untouched and the `CALL_END` byte still unread. -/
theorem claim_C5_amended_witness :
    parse_call 1 (initState [1, 5, 0]) =
      OutP.ok none { initState [0] with v := { mkVState [0] with offset := 2 } } := by
  have h := claim_C5_amended 0 (initState [1, 5, 0]) 5 [0] rfl (by norm_num) (by simp [initState])
  simpa [initState, mkVState, encodeUint, encodeUintAux] using h

/-- Claim C6: EOF mid-event is handled by discarding and warning.  First
conjunct: at end of stream, `parse_call` reports each still-pending call as a
warning (ghost log `warned`) and returns the end-of-stream sentinel, not a
Call.  Second conjunct: if the detail phase of an ENTER aborts at EOF
(`parse_call_details` returned false), the in-progress call is discarded —
the pending registry is left exactly as it was, so the call is never emitted.
Third block: end-to-end on a stream whose last ENTER is truncated inside a
value: the completed call 0 is emitted, the truncated call 2 is discarded,
the pending call 1 is warned about on each subsequent `parse_call`, and both
subsequent invocations return the end-of-stream sentinel. -/
theorem claim_C6_eof_mid_event :
    (∀ (fuel : Nat) (s : ParserState), s.v.stream = [] →
      parse_call (fuel + 1) s = OutP.ok none { s with warned := s.warned ++ s.calls.map Call.no }) ∧
    (∀ (fuel : Nat) (call : Call) (s : ParserState) (v2 : VState),
      parse_call_details fuel call s.v = OutV.ok none v2 →
      parse_enter_finish fuel call s = OutP.ok () { s with v := v2 }) ∧
    ((parseCallsN 3 80 (initState [0, 0, 1, 102, 0, 0, 1, 0, 0, 0, 0, 0, 0, 0, 1, 0])).1 =
      [some { no := 0, sig := { id := 0, name := [102], arg_names := [] }, args := [], ret := none }, none, none] ∧
    (parseCallsN 3 80 (initState [0, 0, 1, 102, 0, 0, 1, 0, 0, 0, 0, 0, 0, 0, 1, 0])).2.warned = [1, 1] ∧
    (parseCallsN 3 80 (initState [0, 0, 1, 102, 0, 0, 1, 0, 0, 0, 0, 0, 0, 0, 1, 0])).2.calls.map Call.no = [1]) := by
  refine ⟨?_, ?_, ?_⟩
  · intro fuel s h
    unfold parse_call
    have hg : getc s.v = (none, s.v) := by simp [getc, h]
    simp only [hg]
  · intro fuel call s v2 h
    unfold parse_enter_finish
    rw [h]
  · refine ⟨?_, ?_, ?_⟩ <;>
    simp [parseCallsN, parse_call, parse_enter, parse_enter_sig, parse_enter_finish,
      parse_leave, parse_call_details, parse_arg, parse_value, parse_uint, parse_sint,
      read_uint, read_string, read_bytes, read_strings, readUintLoop_byte, readUintLoop,
      getc, advance, lookup, insertOffset, argsStore, removeFirstCall, initState, mkVState,
      EVENT_ENTER, EVENT_LEAVE, CALL_END, CALL_ARG, CALL_RET,
      TYPE_NULL, TYPE_FALSE, TYPE_TRUE, TYPE_SINT, TYPE_UINT, TYPE_FLOAT, TYPE_DOUBLE,
      TYPE_STRING, TYPE_BLOB, TYPE_ENUM, TYPE_BITMASK, TYPE_ARRAY, TYPE_STRUCT, TYPE_POINTER]

/-- Witness for claim C6: the empty stream makes `parse_call` return the
sentinel at once (no pending calls, so no warnings), and an ENTER whose
details are cut off after `CALL_ARG 0` discards the in-progress call. -/
theorem claim_C6_witness :
    parse_call 1 (initState []) = OutP.ok none (initState []) ∧
    parse_enter_finish 5
        { no := 0, sig := { id := 0, name := [], arg_names := [] }, args := [], ret := none }
        (initState [1, 0]) =
      OutP.ok () { initState [1, 0] with v := { stream := [], offset := 2, structs := [], enums := [], bitmasks := [], m_structSigOffsets := [], m_enumSigOffsets := [], m_bitmaskSigOffsets := [] } } := by
  constructor
  · have h := claim_C6_eof_mid_event.1 0 (initState []) rfl
    simpa [initState] using h
  · exact claim_C6_eof_mid_event.2.1 5
      { no := 0, sig := { id := 0, name := [], arg_names := [] }, args := [], ret := none }
      (initState [1, 0]) _ rfl

/-- Claim C9: when EOF lands inside a multi-byte varint (every byte read so
far had its continuation bit set), `read_uint` consumes the whole remainder
and returns the value accumulated so far — a partial value below `2 ^ 64` —
rather than an error or sentinel, and that value is indistinguishable from a
complete encoding: decoding its full varint encoding returns the same
value. -/
theorem claim_C9_partial_varint (bs : List Nat) (_hne : bs ≠ [])
    (hcont : ∀ b ∈ bs, b &&& 0x80 ≠ 0) :
    (read_uint (mkVState bs)).2.stream = [] ∧
    (read_uint (mkVState bs)).1 < 2 ^ 64 ∧
    (read_uint (mkVState (encodeUint (read_uint (mkVState bs)).1))).1 =
      (read_uint (mkVState bs)).1 := by
  have h1 : (readUintLoop bs 0 0).2 = [] := readUintLoop_consumesAll bs hcont 0 0
  have h2 : (readUintLoop bs 0 0).1 < 2 ^ 64 := readUintLoop_lt bs 0 0 (by norm_num)
  refine ⟨?_, ?_, ?_⟩
  · simp [read_uint, advance, h1, mkVState]
  · simpa [read_uint, mkVState] using h2
  · have h3 := readUintLoop_encodeUint_zero (n := (read_uint (mkVState bs)).1)
      (by simpa [read_uint, mkVState] using h2) ([] : List Nat)
    rw [List.append_nil] at h3
    simp only [read_uint, mkVState, advance] at h3 ⊢
    rw [h3]

/-- Witness for claim C9: the single byte `0x85` (continuation bit set, then
EOF) decodes to the partial value 5, exactly as the complete encoding of 5
would. -/
theorem claim_C9_witness :
    ((read_uint (mkVState [133])).2.stream = [] ∧
      (read_uint (mkVState [133])).1 < 2 ^ 64 ∧
      (read_uint (mkVState (encodeUint (read_uint (mkVState [133])).1))).1 =
        (read_uint (mkVState [133])).1) ∧
    (read_uint (mkVState [133])).1 = 5 := by
  refine ⟨claim_C9_partial_varint [133] (by simp) (by decide), by decide⟩

/-- Claim C10: LEAVE processing is not atomic on failure.  `parse_leave`
removes the matched call from the pending registry before parsing the leave's
call details; if detail parsing then aborts at EOF, the call is destroyed,
no-call is returned, and the registry no longer holds the entry, so the call
can never be emitted or reported as pending afterwards. -/
theorem claim_C10_leave_not_atomic (fuel : Nat) (s : ParserState) (n : Nat)
    (rest : List Nat) (c : Call) (remaining : List Call) (v2 : VState)
    (hstream : s.v.stream = encodeUint n ++ rest)
    (hn : n < 2 ^ 64)
    (hfound : removeFirstCall n s.calls = (some c, remaining))
    (habort : parse_call_details fuel c
        { s.v with stream := rest, offset := s.v.offset + (encodeUint n).length } = OutV.ok none v2) :
    parse_leave fuel s = OutP.ok none { s with v := v2, calls := remaining } := by
  have hru : read_uint s.v
      = (n, { s.v with stream := rest, offset := s.v.offset + (encodeUint n).length }) := by
    simp only [read_uint, hstream, advance, readUintLoop_encodeUint_zero hn]
    simp [List.length_append]
  simp only [parse_leave, hru, hfound, habort]

/-- Witness for claim C10: a pending call numbered 7, a LEAVE for 7 whose
details are cut off after `CALL_ARG 0`: the leave returns no-call and the
registry is left empty. -/
theorem claim_C10_witness :
    parse_leave 5
        { initState [7, 1, 0] with calls := [{ no := 7, sig := { id := 0, name := [], arg_names := [] }, args := [], ret := none }] } =
      OutP.ok none { initState [7, 1, 0] with v := { stream := [], offset := 3, structs := [], enums := [], bitmasks := [], m_structSigOffsets := [], m_enumSigOffsets := [], m_bitmaskSigOffsets := [] }, calls := [] } := by
  have h := claim_C10_leave_not_atomic 5
    { initState [7, 1, 0] with calls := [{ no := 7, sig := { id := 0, name := [], arg_names := [] }, args := [], ret := none }] }
    7 [1, 0]
    { no := 7, sig := { id := 0, name := [], arg_names := [] }, args := [], ret := none }
    [] { stream := [], offset := 3, structs := [], enums := [], bitmasks := [], m_structSigOffsets := [], m_enumSigOffsets := [], m_bitmaskSigOffsets := [] }
    rfl (by norm_num) rfl rfl
  simpa [initState, mkVState, encodeUint, encodeUintAux] using h

/-- The `lookup` helper leaves the table unchanged whenever the id is already
bound (resizing happens only on a miss past the end). -/
theorem lookup_some_snd {α : Type} {m : List (Option α)} {i : Nat} {x : α}
    (h : (lookup m i).1 = some x) : (lookup m i).2 = m := by
  unfold lookup at h ⊢
  by_cases hl : m.length ≤ i
  · rw [if_pos hl] at h
    simp at h
  · rw [if_neg hl]

/-- Claim C1 (counterexample): function id 0 is bound (`isSome`), the captured
offset 1 is not in the seen-at set (empty), and the stream continues with a
full re-emitted definition body `[1, 103, 0]` (name `"g"`, zero args).  The
claim says a body must be parsed whenever the offset is NOT in `seen_at`;
the code instead consumes only the id varint: the body bytes are still at the
head of the stream afterwards and the existing table entry is returned.  (The
code's actual condition is the opposite polarity: a body is consumed when the
offset IS in the seen-at set, as the amended theorem shows.) -/
theorem claim_C1_counterexample :
    ((lookup ([some { id := 0, name := [102], arg_names := [] }] : List (Option FunctionSig)) 0).1).isSome = true ∧
    (([] : List Nat).contains 1) = false ∧
    parse_enter_sig { v := { stream := [0, 1, 103, 0, 0], offset := 0, structs := [], enums := [], bitmasks := [], m_structSigOffsets := [], m_enumSigOffsets := [], m_bitmaskSigOffsets := [] }, functions := [some { id := 0, name := [102], arg_names := [] }], m_callSigOffsets := [], calls := [], next_call_no := 0, assigned := [], warned := [] } =
      ({ id := 0, name := [102], arg_names := [] }, { v := { stream := [1, 103, 0, 0], offset := 1, structs := [], enums := [], bitmasks := [], m_structSigOffsets := [], m_enumSigOffsets := [], m_bitmaskSigOffsets := [] }, functions := [some { id := 0, name := [102], arg_names := [] }], m_callSigOffsets := [], calls := [], next_call_no := 0, assigned := [], warned := [] }) := by
  exact ⟨rfl, rfl, rfl⟩

/-- Claim C1 (amended): when decoding a signature reference (function at
ENTER, enum, struct, or bitmask), a full definition body is parsed from the
stream if and only if the id is not yet bound in `by_id` or the current
offset IS in that namespace's seen-at offset set; otherwise (id bound,
offset not in the set) no body is consumed and the existing `by_id` entry is
used.  Three conjuncts per namespace: (1) id unbound — the body is parsed,
the signature installed, the offset recorded; (2) id bound and offset in the
set — the body is consumed and discarded, tables unchanged, offset not
re-inserted; (3) id bound and offset not in the set — nothing past the id is
consumed and the existing entry is used. -/
theorem claim_C1_amended :
    (∀ (s : ParserState) (rest : List Nat),
      (lookup s.functions 0).1 = none →
      s.v.stream = [0, 1, 102, 1, 1, 120] ++ rest →
      parse_enter_sig s =
        ({ id := 0, name := [102], arg_names := [[120]] },
         { s with v := { s.v with stream := rest, offset := s.v.offset + 6 }, functions := (lookup s.functions 0).2.set 0 (some { id := 0, name := [102], arg_names := [[120]] }), m_callSigOffsets := insertOffset s.m_callSigOffsets (s.v.offset + 1) })) ∧
    (∀ (s : ParserState) (sig : FunctionSig) (rest : List Nat),
      (lookup s.functions 0).1 = some sig →
      s.m_callSigOffsets.contains (s.v.offset + 1) = true →
      s.v.stream = [0, 1, 102, 1, 1, 120] ++ rest →
      parse_enter_sig s =
        (sig, { s with v := { s.v with stream := rest, offset := s.v.offset + 6 }, functions := s.functions })) ∧
    (∀ (s : ParserState) (sig : FunctionSig) (rest : List Nat),
      (lookup s.functions 0).1 = some sig →
      s.m_callSigOffsets.contains (s.v.offset + 1) = false →
      s.v.stream = 0 :: rest →
      parse_enter_sig s =
        (sig, { s with v := { s.v with stream := rest, offset := s.v.offset + 1 }, functions := s.functions })) ∧
    (∀ (fuel : Nat) (s : VState) (rest : List Nat),
      (lookup s.enums 0).1 = none →
      s.stream = [0, 1, 101, 4, 7] ++ rest →
      parse_enum (fuel + 2) s =
        OutV.ok (some (Value.enum { id := 0, name := [101], value := 7 }))
          { s with stream := rest, offset := s.offset + 5, enums := (lookup s.enums 0).2.set 0 (some { id := 0, name := [101], value := 7 }), m_enumSigOffsets := insertOffset s.m_enumSigOffsets (s.offset + 1) }) ∧
    (∀ (fuel : Nat) (s : VState) (sig : EnumSig) (rest : List Nat),
      (lookup s.enums 0).1 = some sig →
      s.m_enumSigOffsets.contains (s.offset + 1) = true →
      s.stream = [0, 1, 101, 4, 7] ++ rest →
      parse_enum (fuel + 2) s =
        OutV.ok (some (Value.enum sig)) { s with stream := rest, offset := s.offset + 5, enums := s.enums }) ∧
    (∀ (fuel : Nat) (s : VState) (sig : EnumSig) (rest : List Nat),
      (lookup s.enums 0).1 = some sig →
      s.m_enumSigOffsets.contains (s.offset + 1) = false →
      s.stream = 0 :: rest →
      parse_enum (fuel + 2) s =
        OutV.ok (some (Value.enum sig)) { s with stream := rest, offset := s.offset + 1, enums := s.enums }) ∧
    (∀ (fuel : Nat) (s : VState) (rest : List Nat),
      (lookup s.structs 0).1 = none →
      s.stream = [0, 1, 110, 0] ++ rest →
      parse_struct (fuel + 2) s =
        OutV.ok (some (Value.struct { id := 0, name := [110], member_names := [] } []))
          { s with stream := rest, offset := s.offset + 4, structs := (lookup s.structs 0).2.set 0 (some { id := 0, name := [110], member_names := [] }), m_structSigOffsets := insertOffset s.m_structSigOffsets (s.offset + 1) }) ∧
    (∀ (fuel : Nat) (s : VState) (sig : StructSig) (rest : List Nat),
      (lookup s.structs 0).1 = some sig →
      sig.member_names = [] →
      s.m_structSigOffsets.contains (s.offset + 1) = true →
      s.stream = [0, 1, 110, 1, 1, 109] ++ rest →
      parse_struct (fuel + 2) s =
        OutV.ok (some (Value.struct sig [])) { s with stream := rest, offset := s.offset + 6, structs := s.structs }) ∧
    (∀ (fuel : Nat) (s : VState) (sig : StructSig) (rest : List Nat),
      (lookup s.structs 0).1 = some sig →
      sig.member_names = [] →
      s.m_structSigOffsets.contains (s.offset + 1) = false →
      s.stream = 0 :: rest →
      parse_struct (fuel + 2) s =
        OutV.ok (some (Value.struct sig [])) { s with stream := rest, offset := s.offset + 1, structs := s.structs }) ∧
    (∀ (s : VState) (rest : List Nat),
      (lookup s.bitmasks 0).1 = none →
      s.stream = [0, 1, 1, 98, 3, 9] ++ rest →
      parse_bitmask s =
        (Value.bitmask { id := 0, flags := [{ name := [98], value := 3 }] } 9,
         { s with stream := rest, offset := s.offset + 6, bitmasks := (lookup s.bitmasks 0).2.set 0 (some { id := 0, flags := [{ name := [98], value := 3 }] }), m_bitmaskSigOffsets := insertOffset s.m_bitmaskSigOffsets (s.offset + 1) })) ∧
    (∀ (s : VState) (sig : BitmaskSig) (rest : List Nat),
      (lookup s.bitmasks 0).1 = some sig →
      s.m_bitmaskSigOffsets.contains (s.offset + 1) = true →
      s.stream = [0, 1, 1, 98, 3, 9] ++ rest →
      parse_bitmask s =
        (Value.bitmask sig 9, { s with stream := rest, offset := s.offset + 6, bitmasks := s.bitmasks })) ∧
    (∀ (s : VState) (sig : BitmaskSig) (rest : List Nat),
      (lookup s.bitmasks 0).1 = some sig →
      s.m_bitmaskSigOffsets.contains (s.offset + 1) = false →
      s.stream = [0, 9] ++ rest →
      parse_bitmask s =
        (Value.bitmask sig 9, { s with stream := rest, offset := s.offset + 2, bitmasks := s.bitmasks })) := by
  refine ⟨?_, ?_, ?_, ?_, ?_, ?_, ?_, ?_, ?_, ?_, ?_, ?_⟩
  · intro s rest hlk hstream
    have hru : read_uint s.v = (0, { s.v with stream := [1, 102, 1, 1, 120] ++ rest, offset := s.v.offset + 1 }) := by
      simp [read_uint, hstream, readUintLoop_byte, advance]
    simp only [parse_enter_sig, hru, hlk]
    simp [read_string, read_bytes, read_strings, read_uint, readUintLoop_byte, advance]
  · intro s sig rest hlk hw hstream
    have hru : read_uint s.v = (0, { s.v with stream := [1, 102, 1, 1, 120] ++ rest, offset := s.v.offset + 1 }) := by
      simp [read_uint, hstream, readUintLoop_byte, advance]
    simp only [parse_enter_sig, hru, hlk, lookup_some_snd hlk, hw, if_true]
    simp [read_string, read_bytes, read_strings, read_uint, readUintLoop_byte, advance]
  · intro s sig rest hlk hw hstream
    have hru : read_uint s.v = (0, { s.v with stream := rest, offset := s.v.offset + 1 }) := by
      simp [read_uint, hstream, readUintLoop_byte, advance]
    simp only [parse_enter_sig, hru, hlk, lookup_some_snd hlk, hw, Bool.false_eq_true, if_false]
  · intro fuel s rest hlk hstream
    have hru : read_uint s = (0, { s with stream := [1, 101, 4, 7] ++ rest, offset := s.offset + 1 }) := by
      simp [read_uint, hstream, readUintLoop_byte, advance]
    simp only [parse_enum, hru, hlk]
    simp [read_string, read_bytes, read_uint, readUintLoop_byte, advance, parse_value,
      getc, parse_uint, toSInt,
      TYPE_NULL, TYPE_FALSE, TYPE_TRUE, TYPE_SINT, TYPE_UINT]
  · intro fuel s sig rest hlk hw hstream
    have hru : read_uint s = (0, { s with stream := [1, 101, 4, 7] ++ rest, offset := s.offset + 1 }) := by
      simp [read_uint, hstream, readUintLoop_byte, advance]
    simp only [parse_enum, hru, hlk, lookup_some_snd hlk, hw, if_true]
    simp [read_string, read_bytes, read_uint, readUintLoop_byte, advance, parse_value,
      getc, parse_uint,
      TYPE_NULL, TYPE_FALSE, TYPE_TRUE, TYPE_SINT, TYPE_UINT]
  · intro fuel s sig rest hlk hw hstream
    have hru : read_uint s = (0, { s with stream := rest, offset := s.offset + 1 }) := by
      simp [read_uint, hstream, readUintLoop_byte, advance]
    simp only [parse_enum, hru, hlk, lookup_some_snd hlk, hw, Bool.false_eq_true, if_false]
  · intro fuel s rest hlk hstream
    have hru : read_uint s = (0, { s with stream := [1, 110, 0] ++ rest, offset := s.offset + 1 }) := by
      simp [read_uint, hstream, readUintLoop_byte, advance]
    simp only [parse_struct, hru, hlk]
    simp [read_string, read_bytes, read_strings, read_uint, readUintLoop_byte, advance,
      parse_values_into]
  · intro fuel s sig rest hlk hm hw hstream
    have hru : read_uint s = (0, { s with stream := [1, 110, 1, 1, 109] ++ rest, offset := s.offset + 1 }) := by
      simp [read_uint, hstream, readUintLoop_byte, advance]
    simp only [parse_struct, hru, hlk, lookup_some_snd hlk, hw, if_true]
    simp [read_string, read_bytes, read_strings, read_uint, readUintLoop_byte, advance,
      parse_values_into, hm]
  · intro fuel s sig rest hlk hm hw hstream
    have hru : read_uint s = (0, { s with stream := rest, offset := s.offset + 1 }) := by
      simp [read_uint, hstream, readUintLoop_byte, advance]
    simp only [parse_struct, hru, hlk, lookup_some_snd hlk, hw, Bool.false_eq_true, if_false]
    simp [parse_values_into, hm]
  · intro s rest hlk hstream
    have hru : read_uint s = (0, { s with stream := [1, 1, 98, 3, 9] ++ rest, offset := s.offset + 1 }) := by
      simp [read_uint, hstream, readUintLoop_byte, advance]
    simp only [parse_bitmask, hru, hlk]
    simp [read_string, read_bytes, read_uint, readUintLoop_byte, advance, read_bitmask_flags]
  · intro s sig rest hlk hw hstream
    have hru : read_uint s = (0, { s with stream := [1, 1, 98, 3, 9] ++ rest, offset := s.offset + 1 }) := by
      simp [read_uint, hstream, readUintLoop_byte, advance]
    simp only [parse_bitmask, hru, hlk, lookup_some_snd hlk, hw, if_true]
    simp [read_string, read_bytes, read_uint, readUintLoop_byte, advance, read_bitmask_flags]
  · intro s sig rest hlk hw hstream
    have hru : read_uint s = (0, { s with stream := 9 :: rest, offset := s.offset + 1 }) := by
      simp [read_uint, hstream, readUintLoop_byte, advance]
    simp only [parse_bitmask, hru, hlk, lookup_some_snd hlk, hw, Bool.false_eq_true, if_false]
    simp [read_uint, readUintLoop_byte, advance]

/-- Witness for claim C1 (amended): all twelve cases instantiated at concrete
parser states — fresh tables for the install cases, a pre-bound id for the
skip and reference cases, with the captured offset present or absent from the
seen-at set as each case requires. -/
theorem claim_C1_amended_witness :
    parse_enter_sig (initState [0, 1, 102, 1, 1, 120]) =
      ({ id := 0, name := [102], arg_names := [[120]] },
       { initState [] with v := { mkVState [] with offset := 6 }, functions := [some { id := 0, name := [102], arg_names := [[120]] }], m_callSigOffsets := [1] }) ∧
    parse_enter_sig { initState [0, 1, 102, 1, 1, 120] with functions := [some { id := 0, name := [70], arg_names := [] }], m_callSigOffsets := [1] } =
      ({ id := 0, name := [70], arg_names := [] },
       { initState [] with v := { mkVState [] with offset := 6 }, functions := [some { id := 0, name := [70], arg_names := [] }], m_callSigOffsets := [1] }) ∧
    parse_enter_sig { initState [0, 7] with functions := [some { id := 0, name := [70], arg_names := [] }] } =
      ({ id := 0, name := [70], arg_names := [] },
       { initState [] with v := { mkVState [7] with offset := 1 }, functions := [some { id := 0, name := [70], arg_names := [] }] }) ∧
    parse_enum 9 (mkVState [0, 1, 101, 4, 7]) =
      OutV.ok (some (Value.enum { id := 0, name := [101], value := 7 }))
        { mkVState [] with offset := 5, enums := [some { id := 0, name := [101], value := 7 }], m_enumSigOffsets := [1] } ∧
    parse_enum 9 { mkVState [0, 1, 101, 4, 7] with enums := [some { id := 0, name := [69], value := 3 }], m_enumSigOffsets := [1] } =
      OutV.ok (some (Value.enum { id := 0, name := [69], value := 3 }))
        { mkVState [] with offset := 5, enums := [some { id := 0, name := [69], value := 3 }], m_enumSigOffsets := [1] } ∧
    parse_enum 9 { mkVState [0, 7] with enums := [some { id := 0, name := [69], value := 3 }] } =
      OutV.ok (some (Value.enum { id := 0, name := [69], value := 3 }))
        { mkVState [7] with offset := 1, enums := [some { id := 0, name := [69], value := 3 }] } ∧
    parse_struct 9 (mkVState [0, 1, 110, 0]) =
      OutV.ok (some (Value.struct { id := 0, name := [110], member_names := [] } []))
        { mkVState [] with offset := 4, structs := [some { id := 0, name := [110], member_names := [] }], m_structSigOffsets := [1] } ∧
    parse_struct 9 { mkVState [0, 1, 110, 1, 1, 109] with structs := [some { id := 0, name := [83], member_names := [] }], m_structSigOffsets := [1] } =
      OutV.ok (some (Value.struct { id := 0, name := [83], member_names := [] } []))
        { mkVState [] with offset := 6, structs := [some { id := 0, name := [83], member_names := [] }], m_structSigOffsets := [1] } ∧
    parse_struct 9 { mkVState [0, 7] with structs := [some { id := 0, name := [83], member_names := [] }] } =
      OutV.ok (some (Value.struct { id := 0, name := [83], member_names := [] } []))
        { mkVState [7] with offset := 1, structs := [some { id := 0, name := [83], member_names := [] }] } ∧
    parse_bitmask (mkVState [0, 1, 1, 98, 3, 9]) =
      (Value.bitmask { id := 0, flags := [{ name := [98], value := 3 }] } 9,
       { mkVState [] with offset := 6, bitmasks := [some { id := 0, flags := [{ name := [98], value := 3 }] }], m_bitmaskSigOffsets := [1] }) ∧
    parse_bitmask { mkVState [0, 1, 1, 98, 3, 9] with bitmasks := [some { id := 0, flags := [] }], m_bitmaskSigOffsets := [1] } =
      (Value.bitmask { id := 0, flags := [] } 9,
       { mkVState [] with offset := 6, bitmasks := [some { id := 0, flags := [] }], m_bitmaskSigOffsets := [1] }) ∧
    parse_bitmask { mkVState [0, 9] with bitmasks := [some { id := 0, flags := [] }] } =
      (Value.bitmask { id := 0, flags := [] } 9,
       { mkVState [] with offset := 2, bitmasks := [some { id := 0, flags := [] }] }) := by
  refine ⟨?_, ?_, ?_, ?_, ?_, ?_, ?_, ?_, ?_, ?_, ?_, ?_⟩
  · exact (claim_C1_amended.1 (initState [0, 1, 102, 1, 1, 120]) [] rfl rfl).trans (by rfl)
  · exact (claim_C1_amended.2.1 { initState [0, 1, 102, 1, 1, 120] with functions := [some { id := 0, name := [70], arg_names := [] }], m_callSigOffsets := [1] } { id := 0, name := [70], arg_names := [] } [] rfl rfl rfl).trans (by rfl)
  · exact (claim_C1_amended.2.2.1 { initState [0, 7] with functions := [some { id := 0, name := [70], arg_names := [] }] } { id := 0, name := [70], arg_names := [] } [7] rfl rfl rfl).trans (by rfl)
  · exact (claim_C1_amended.2.2.2.1 7 (mkVState [0, 1, 101, 4, 7]) [] rfl rfl).trans (by rfl)
  · exact (claim_C1_amended.2.2.2.2.1 7 { mkVState [0, 1, 101, 4, 7] with enums := [some { id := 0, name := [69], value := 3 }], m_enumSigOffsets := [1] } { id := 0, name := [69], value := 3 } [] rfl rfl rfl).trans (by rfl)
  · exact (claim_C1_amended.2.2.2.2.2.1 7 { mkVState [0, 7] with enums := [some { id := 0, name := [69], value := 3 }] } { id := 0, name := [69], value := 3 } [7] rfl rfl rfl).trans (by rfl)
  · exact (claim_C1_amended.2.2.2.2.2.2.1 7 (mkVState [0, 1, 110, 0]) [] rfl rfl).trans (by rfl)
  · exact (claim_C1_amended.2.2.2.2.2.2.2.1 7 { mkVState [0, 1, 110, 1, 1, 109] with structs := [some { id := 0, name := [83], member_names := [] }], m_structSigOffsets := [1] } { id := 0, name := [83], member_names := [] } [] rfl rfl rfl rfl).trans (by rfl)
  · exact (claim_C1_amended.2.2.2.2.2.2.2.2.1 7 { mkVState [0, 7] with structs := [some { id := 0, name := [83], member_names := [] }] } { id := 0, name := [83], member_names := [] } [7] rfl rfl rfl rfl).trans (by rfl)
  · exact (claim_C1_amended.2.2.2.2.2.2.2.2.2.1 (mkVState [0, 1, 1, 98, 3, 9]) [] rfl rfl).trans (by rfl)
  · exact (claim_C1_amended.2.2.2.2.2.2.2.2.2.2.1 { mkVState [0, 1, 1, 98, 3, 9] with bitmasks := [some { id := 0, flags := [] }], m_bitmaskSigOffsets := [1] } { id := 0, flags := [] } [] rfl rfl rfl).trans (by rfl)
  · exact (claim_C1_amended.2.2.2.2.2.2.2.2.2.2.2 { mkVState [0, 9] with bitmasks := [some { id := 0, flags := [] }] } { id := 0, flags := [] } [] rfl rfl rfl).trans (by rfl)

/-- Claim C8: for every `u` in
`{0, 1, 127, 128, 16383, 16384, 2^32 - 1, 2^64 - 1}`, decoding (via
`read_uint`) the little-endian base-128 varint encoding of `u` yields `u`. -/
theorem claim_C8_varint_roundtrip :
    (read_uint (mkVState (encodeUint 0))).1 = 0 ∧
    (read_uint (mkVState (encodeUint 1))).1 = 1 ∧
    (read_uint (mkVState (encodeUint 127))).1 = 127 ∧
    (read_uint (mkVState (encodeUint 128))).1 = 128 ∧
    (read_uint (mkVState (encodeUint 16383))).1 = 16383 ∧
    (read_uint (mkVState (encodeUint 16384))).1 = 16384 ∧
    (read_uint (mkVState (encodeUint (2 ^ 32 - 1)))).1 = 2 ^ 32 - 1 ∧
    (read_uint (mkVState (encodeUint (2 ^ 64 - 1)))).1 = 2 ^ 64 - 1 := by
  decide

end Trace
